import Mathlib

/-!
Verification of `bin/runmigration.js` from `sequelize-auto-migrations`.

The script discovers migration files, orders them by a revision number
parsed from the filename, resolves `to`/`from`/`toRev`/`fromRev` selectors
into endpoint names, and delegates execution to the Umzug migration
framework.  This file shallowly embeds the script's pure logic:

* `jsParseInt`, `jsBasename`, `beforeDash`, `parseRevision` — the revision
  parse `parseInt(path.basename(name).split('-',2)[0])`, with JavaScript
  `parseInt` semantics (leading whitespace, optional sign, optional
  `0x`/`0X` hex literal, maximal digit run, `none` standing for `NaN`);
* `jsCompare`, `sortMigrations`, `discoverMigrations` — the filename
  filter and the sort comparator of `Main`; `Array.prototype.sort` is
  embedded as a stable insertion sort driven by the source comparator;
* `prepareMigrations` — the per-migration mutation performed inside
  `getMigrator` (position, transaction flag, name);
* `resolveRange` — the revision-range resolution block of `Main`,
  including JavaScript truthiness of the string and numeric options;
* `mainExitCode` — the process exit-code paths of `Main` and its
  top-level wrapper;
* a spec-modelled Runner/tracking-store (the execution and tracking
  semantics live in the external Umzug library, not in this repository).
-/

namespace RunMigration

/-! ### A comparator-driven stable insertion sort

`Array.prototype.sort(cmp)` is embedded as a stable insertion sort using
the boolean relation `cmp a b <= 0`. -/

def orderedInsertBy (le : α → α → Bool) (x : α) : List α → List α
  | [] => [x]
  | y :: ys => if le x y then x :: y :: ys else y :: orderedInsertBy le x ys

def insertionSortBy (le : α → α → Bool) : List α → List α
  | [] => []
  | x :: xs => orderedInsertBy le x (insertionSortBy le xs)


/-! ### JavaScript primitives

`jsParseInt` embeds `parseInt(s)` (radix argument omitted): skip leading
whitespace, read an optional sign, recognise a `0x`/`0X` hexadecimal
prefix, then take the maximal run of digits; no digits means `NaN`,
embedded as `none`. -/

def isJsSpace (c : Char) : Bool :=
  c == ' ' || c == '\t' || c == '\n' || c == '\r' ||
  c == '\x0b' || c == '\x0c' || c == ' '

def isDecDigit (c : Char) : Bool := '0' ≤ c && c ≤ '9'

def isHexDigit (c : Char) : Bool :=
  ('0' ≤ c && c ≤ '9') || ('a' ≤ c && c ≤ 'f') || ('A' ≤ c && c ≤ 'F')

def hexDigitVal (c : Char) : Nat :=
  if '0' ≤ c && c ≤ '9' then c.toNat - '0'.toNat
  else if 'a' ≤ c && c ≤ 'f' then c.toNat - 'a'.toNat + 10
  else if 'A' ≤ c && c ≤ 'F' then c.toNat - 'A'.toNat + 10
  else 0

def digitsVal (radix : Nat) : List Char → Nat → Nat
  | [], acc => acc
  | c :: cs, acc => digitsVal radix cs (acc * radix + hexDigitVal c)

def jsParseInt (s : String) : Option Int :=
  let cs := s.data.dropWhile isJsSpace
  let (sign, cs) : Int × List Char :=
    match cs with
    | '-' :: rest => (-1, rest)
    | '+' :: rest => (1, rest)
    | _ => (1, cs)
  let (radix, cs) : Nat × List Char :=
    match cs with
    | '0' :: 'x' :: rest => (16, rest)
    | '0' :: 'X' :: rest => (16, rest)
    | _ => (10, cs)
  let digits := cs.takeWhile (if radix == 16 then isHexDigit else isDecDigit)
  if digits.isEmpty then none
  else some (sign * (digitsVal radix digits 0 : Int))

/-- `path.basename` on a POSIX path: the part after the last `/`.  The
filenames fed to the comparator come from `fs.readdirSync` and contain no
separators, so this is the identity there. -/
def jsBasename (s : String) : String :=
  ⟨(s.data.reverse.takeWhile (fun c => !(c == '/'))).reverse⟩

/-- `s.split('-', 2)[0]`: the substring before the first `-` (the whole
string when there is no `-`). -/
def beforeDash (s : String) : String :=
  ⟨s.data.takeWhile (fun c => !(c == '-'))⟩

/-- The revision parse used by the sort comparator of `Main`:
`parseInt(path.basename(name).split('-',2)[0])`; `none` stands for `NaN`. -/
def parseRevision (name : String) : Option Int :=
  jsParseInt (beforeDash (jsBasename name))

/-- The revision as a plain integer, defaulting to `0`; only used to state
ordering over filenames that are known to parse. -/
def revValue (name : String) : Int :=
  (parseRevision name).getD 0

/-! ### Catalog: file discovery and the sort comparator -/

/-- `file.indexOf('.') !== 0`: the first character is not a dot (an
absent dot gives index `-1`, which also passes). -/
def dotIndexNotZero (f : String) : Bool :=
  match f.data with
  | '.' :: _ => false
  | _ => true

/-- `file.slice(-3) === '.js'`: the last three characters are `.js`
(shorter strings compare unequal). -/
def sliceIsJs (f : String) : Bool :=
  match f.data.reverse with
  | 's' :: 'j' :: '.' :: _ => true
  | _ => false

/-- The `readdirSync` filter of `Main`:
`file.indexOf('.') !== 0 && file.slice(-3) === '.js'`. -/
def jsFileFilter (f : String) : Bool :=
  dotIndexNotZero f && sliceIsJs f

/-- The sort comparator of `Main`.  Both revisions are parsed with
`parseInt`; when either is `NaN` every `<`/`>` comparison is false and the
comparator falls through to `0` in both directions. -/
def jsCompare (rollback : Bool) (a b : String) : Int :=
  match parseRevision a, parseRevision b with
  | some revA, some revB =>
    if rollback then
      if revA < revB then 1 else if revA > revB then -1 else 0
    else
      if revA < revB then -1 else if revA > revB then 1 else 0
  | _, _ => 0

/-- The boolean ordering induced by the comparator, as consumed by
`Array.prototype.sort`. -/
def migLe (rollback : Bool) (a b : String) : Bool :=
  decide (jsCompare rollback a b ≤ 0)

def sortMigrations (rollback : Bool) (files : List String) : List String :=
  insertionSortBy (migLe rollback) files

/-- The catalog pipeline of `Main`: filter eligible filenames, then sort
with the revision comparator. -/
def discoverMigrations (rollback : Bool) (entries : List String) : List String :=
  sortMigrations rollback (entries.filter jsFileFilter)

/-! ### Migration records and `getMigrator` preparation -/

/-- The `info` block of a loaded migration module. -/
structure MigrationInfo where
  revision : Int
  deriving Repr, DecidableEq

/-- A loaded migration module (`AutoMigration` in the source's JSDoc).
The opaque `up`/`down`/`execute` script bodies are not represented; only
the fields the runner script reads and writes are. -/
structure AutoMigration where
  info : MigrationInfo
  pos : Int
  useTransaction : Bool
  name : String
  deriving Repr, DecidableEq

/-- An entry of `migrationFiles` (`AutoMigrationFile` in the JSDoc):
the filename plus the `require`d module; `none` models a module that
loaded to a falsy value. -/
structure AutoMigrationFile where
  name : String
  migration : Option AutoMigration
  deriving Repr, DecidableEq

/-- The per-file mapping inside `getMigrator`: throw when the module is
falsy (embedded as `none`), overwrite `pos` with the step when the step is
positive, and set `useTransaction` and `name`.  Note the `pos` overwrite
happens for every file in the list. -/
def prepareMigration (step : Int) (useTransaction : Bool)
    (file : AutoMigrationFile) : Option AutoMigration :=
  match file.migration with
  | none => none
  | some m =>
    let m := if step > 0 then { m with pos := step } else m
    some { m with useTransaction := useTransaction, name := file.name }

/-- The full `migrationFiles.map(...)` performed when `getMigrator` builds
the Umzug migration list; `none` models the thrown `Error`. -/
def prepareMigrations (step : Int) (useTransaction : Bool)
    (files : List AutoMigrationFile) : Option (List AutoMigration) :=
  files.mapM (prepareMigration step useTransaction)

/-! ### Range resolution -/

/-- JavaScript truthiness of an optional string option: `undefined` and
the empty string are falsy. -/
def strTruthy : Option String → Bool
  | none => false
  | some s => !(s == "")

/-- JavaScript truthiness of an optional numeric option: `undefined` and
`0` are falsy (`NaN`, also falsy, has no representative here). -/
def numTruthy : Option Int → Bool
  | none => false
  | some v => !(v == 0)

/-- `migrationFiles.find(e => e.migration ? e.migration.info.revision === rev : false)`. -/
def findByRev (files : List AutoMigrationFile) (rev : Int) : Option AutoMigrationFile :=
  files.find? fun e =>
    match e.migration with
    | some m => m.info.revision == rev
    | none => false

/-- The `to`/`from` pair passed to `migrator.up`/`migrator.down`
(`methodOptions` in the source), named after the source's local variables
`toMigration`/`fromMigration`. -/
structure ResolvedRange where
  toMigration : Option String
  fromMigration : Option String
  deriving Repr, DecidableEq

/-- The revision-range resolution block of `Main` (the `if`/`else if`
chain over `toMigration`/`toRev`/`fromMigration`/`fromRev`), with
JavaScript truthiness for each guard.  `toArg`/`fromArg` are the `to`
and `from` command-line options. -/
def resolveRange (files : List AutoMigrationFile) (toArg fromArg : Option String)
    (toRev fromRev : Option Int) (rollback : Bool) : ResolvedRange :=
  if !(strTruthy toArg) && numTruthy toRev && !(strTruthy fromArg) && numTruthy fromRev then
    let tr := toRev.getD 0
    let fr := fromRev.getD 0
    if (decide (tr < fr) && rollback) || (decide (tr > fr) && !rollback) then
      match findByRev files tr, findByRev files fr with
      | some tm, some fm => ⟨some tm.name, some fm.name⟩
      | _, _ => ⟨toArg, fromArg⟩
    else ⟨toArg, fromArg⟩
  else if !(strTruthy toArg) && numTruthy toRev && !(strTruthy fromArg) && !(numTruthy fromRev) then
    match findByRev files (toRev.getD 0) with
    | some tm => ⟨some tm.name, fromArg⟩
    | none => ⟨toArg, fromArg⟩
  else if !(strTruthy toArg) && !(numTruthy toRev) && !(strTruthy fromArg) && numTruthy fromRev then
    match findByRev files (fromRev.getD 0) with
    | some fm => ⟨toArg, some fm.name⟩
    | none => ⟨toArg, fromArg⟩
  else ⟨toArg, fromArg⟩

/-! ### Exit-code paths of `Main` -/

/-- The observable environment of one `runmigration` invocation: which
directory checks pass, which flags are set, and how the external calls
(`require(modelsDir)`, `migrator.executed()`/`pending()`,
`migrator.up()`/`down()`) turn out. -/
structure MainEnv where
  modelsDirExists : Bool
  migrationsDirExists : Bool
  help : Bool
  list : Bool
  modelsLoadOk : Bool
  listResult : Except String (List String × List String)
  runResult : Except String (List String)

/-- The process exit code of one invocation, following the control flow of
`Main` and its top-level wrapper: a missing models or migrations directory
prints a message and returns (the process then exits normally with `0`);
`--help` and `--list` call `process.exit(0)`; a throwing `require`, list
query, or migration run reaches a `catch` that calls `process.exit(1)`;
a successful run calls `process.exit(0)`. -/
def mainExitCode (env : MainEnv) : Nat :=
  if !env.modelsDirExists then 0
  else if !env.migrationsDirExists then 0
  else if env.help then 0
  else if !env.modelsLoadOk then 1
  else if env.list then
    match env.listResult with
    | .ok _ => 0
    | .error _ => 1
  else
    match env.runResult with
    | .ok _ => 0
    | .error _ => 1

/-! ### Spec-modelled Runner and tracking store

The execution engine and the applied-state tracking table live in the
external Umzug library, not in this repository; the following definitions
are modelled from the spec (sections 4.3 and 6). -/

/-- Modelled from the spec: one executable migration as the Runner sees
it — a durable `name` key plus the outcomes of its opaque `applyFn` and
`revertFn` (spec section 3); the script bodies themselves are external. -/
structure SpecRecord where
  name : String
  applyOk : Bool
  revertOk : Bool
  deriving Repr, DecidableEq

/-- Modelled from the spec: the executor's tracking store, "one tracking
table/collection recording applied migration names" (spec section 6). -/
abbrev TrackingStore := List String

/-- Modelled from the spec: `markApplied(name)` appends the name to the
tracking store. -/
def markApplied (st : TrackingStore) (n : String) : TrackingStore :=
  (st : List String) ++ [n]

/-- Modelled from the spec: `markReverted(name)` removes the name from the
tracking store. -/
def markReverted (st : TrackingStore) (n : String) : TrackingStore :=
  (st : List String).filter (fun m => !(m == n))

/-- Modelled from the spec: a forward run (spec section 4.3) — apply each
record in turn, persist the name on success, abort on the first failure.
Returns the tracking store and whether the run completed. -/
def runUp : List SpecRecord → TrackingStore → TrackingStore × Bool
  | [], st => (st, true)
  | r :: rs, st =>
    if r.applyOk then runUp rs (markApplied st r.name)
    else (st, false)

/-- Modelled from the spec: a rollback run (spec section 4.3) — revert
each record in turn (the caller passes the already-reversed order), remove
the name on success, abort on the first failure. -/
def runDown : List SpecRecord → TrackingStore → TrackingStore × Bool
  | [], st => (st, true)
  | r :: rs, st =>
    if r.revertOk then runDown rs (markReverted st r.name)
    else (st, false)

/-- Modelled from the spec: `listApplied()` — the discovered migrations
recorded in the tracking store (the `executed` query of the `--list`
branch). -/
def listExecuted (catalog : List String) (st : TrackingStore) : List String :=
  catalog.filter (fun n => (st : List String).contains n)

/-- Modelled from the spec: `listPending()` — the discovered migrations
absent from the tracking store (the `pending` query of the `--list`
branch). -/
def listPending (catalog : List String) (st : TrackingStore) : List String :=
  catalog.filter (fun n => !((st : List String).contains n))

/-- Modelled from the spec: the `--list` branch of `Main` — query
`executed` and `pending` and return the (unchanged) tracking store. -/
def listBranch (catalog : List String) (st : TrackingStore) :
    (List String × List String) × TrackingStore :=
  ((listExecuted catalog st, listPending catalog st), st)

/-! ### Concrete fixtures used by witnesses -/

/-- A migration file whose module loaded, with the given revision. -/
def mkFile (rev : Int) (n : String) : AutoMigrationFile :=
  ⟨n, some ⟨⟨rev⟩, 0, true, n⟩⟩

/-- A four-entry catalog with revisions 10, 20, 30, 40. -/
def sampleCatalog : List AutoMigrationFile :=
  [mkFile 10 "10-a.js", mkFile 20 "20-b.js", mkFile 30 "30-c.js", mkFile 40 "40-d.js"]

/-! ## Helper lemmas -/

theorem perm_orderedInsertBy (le : α → α → Bool) (x : α) :
    ∀ l : List α, (orderedInsertBy le x l).Perm (x :: l)
  | [] => List.Perm.refl _
  | y :: ys => by
    by_cases h : le x y
    · simp [orderedInsertBy, h]
    · simpa [orderedInsertBy, h] using
        ((perm_orderedInsertBy le x ys).cons y).trans (List.Perm.swap x y ys)

theorem perm_insertionSortBy (le : α → α → Bool) :
    ∀ l : List α, (insertionSortBy le l).Perm l
  | [] => List.Perm.refl _
  | x :: xs =>
    (perm_orderedInsertBy le x (insertionSortBy le xs)).trans
      ((perm_insertionSortBy le xs).cons x)

theorem mem_insertionSortBy {le : α → α → Bool} {l : List α} {a : α} :
    a ∈ insertionSortBy le l ↔ a ∈ l :=
  (perm_insertionSortBy le l).mem_iff

theorem mem_orderedInsertBy {le : α → α → Bool} {x : α} {l : List α} {a : α} :
    a ∈ orderedInsertBy le x l ↔ a ∈ x :: l :=
  (perm_orderedInsertBy le x l).mem_iff

theorem orderedInsertBy_congr (le₁ le₂ : α → α → Bool) (x : α) :
    ∀ l : List α, (∀ b ∈ l, le₁ x b = le₂ x b) →
      orderedInsertBy le₁ x l = orderedInsertBy le₂ x l
  | [], _ => rfl
  | y :: ys, h => by
    have hy : le₁ x y = le₂ x y := h y (List.mem_cons_self y ys)
    by_cases hxy : le₂ x y
    · simp [orderedInsertBy, hy, hxy]
    · simp only [orderedInsertBy, hy, hxy, if_neg, Bool.false_eq_true, if_false]
      rw [orderedInsertBy_congr le₁ le₂ x ys (fun b hb => h b (List.mem_cons_of_mem y hb))]

theorem insertionSortBy_congr (le₁ le₂ : α → α → Bool) :
    ∀ l : List α, (∀ a ∈ l, ∀ b ∈ l, le₁ a b = le₂ a b) →
      insertionSortBy le₁ l = insertionSortBy le₂ l
  | [], _ => rfl
  | x :: xs, h => by
    have hxs : insertionSortBy le₁ xs = insertionSortBy le₂ xs :=
      insertionSortBy_congr le₁ le₂ xs fun a ha b hb =>
        h a (List.mem_cons_of_mem x ha) b (List.mem_cons_of_mem x hb)
    simp only [insertionSortBy, hxs]
    exact orderedInsertBy_congr le₁ le₂ x _ fun b hb =>
      h x (List.mem_cons_self x xs) b
        (List.mem_cons_of_mem x (mem_insertionSortBy.mp hb))

/-- Sortedness of the key-driven insertion sort: inserting into a list that
is pairwise nondecreasing on an integer key keeps it so. -/
theorem pairwise_orderedInsertBy_key (key : α → Int) (x : α) :
    ∀ l : List α, l.Pairwise (fun a b => key a ≤ key b) →
      (orderedInsertBy (fun a b => decide (key a ≤ key b)) x l).Pairwise
        (fun a b => key a ≤ key b)
  | [], _ => List.pairwise_singleton _ x
  | y :: ys, h => by
    rcases List.pairwise_cons.mp h with ⟨hy, hys⟩
    by_cases hxy : key x ≤ key y
    · simp only [orderedInsertBy, decide_eq_true_eq, hxy, if_true]
      refine List.pairwise_cons.mpr ⟨?_, h⟩
      intro b hb
      rcases List.mem_cons.mp hb with hb | hb
      · exact hb ▸ hxy
      · exact le_trans hxy (hy b hb)
    · simp only [orderedInsertBy, decide_eq_true_eq, hxy, if_false]
      refine List.pairwise_cons.mpr ⟨?_, pairwise_orderedInsertBy_key key x ys hys⟩
      intro b hb
      rcases List.mem_cons.mp (mem_orderedInsertBy.mp hb) with hb | hb
      · exact hb ▸ le_of_lt (lt_of_not_le hxy)
      · exact hy b hb

theorem pairwise_insertionSortBy_key (key : α → Int) :
    ∀ l : List α,
      (insertionSortBy (fun a b => decide (key a ≤ key b)) l).Pairwise
        (fun a b => key a ≤ key b)
  | [] => List.Pairwise.nil
  | x :: xs =>
    pairwise_orderedInsertBy_key key x _ (pairwise_insertionSortBy_key key xs)

/-! ## Claims -/

/-- C2: When both `toRev` and `fromRev` are supplied (nonzero, hence
truthy) and neither name selector is, a directionally inconsistent pair
(`toRev ≤ fromRev` for forward runs, `toRev ≥ fromRev` for rollback runs)
leaves both endpoints unresolved, which the runner treats as
"run everything". -/
theorem resolve_bothRev_inconsistent_unresolved
    (files : List AutoMigrationFile) (tr fr : Int) (rollback : Bool)
    (htr : tr ≠ 0) (hfr : fr ≠ 0)
    (hdir : ¬((tr < fr ∧ rollback = true) ∨ (tr > fr ∧ rollback = false))) :
    resolveRange files none none (some tr) (some fr) rollback = ⟨none, none⟩ := by
  rcases not_or.mp hdir with ⟨h1, h2⟩
  cases rollback with
  | false =>
    have hgt : ¬(tr > fr) := fun h => h2 ⟨h, rfl⟩
    simp [resolveRange, strTruthy, numTruthy, htr, hfr, hgt]
  | true =>
    have hlt : ¬(tr < fr) := fun h => h1 ⟨h, rfl⟩
    simp [resolveRange, strTruthy, numTruthy, htr, hfr, hlt]

/-- Witness for C2: `toRev=10`, `fromRev=40`, direction up, on the sample
catalog — both endpoints unresolved. -/
theorem resolve_bothRev_inconsistent_unresolved_witness :
    resolveRange sampleCatalog none none (some 10) (some 40) false =
      ⟨none, none⟩ :=
  resolve_bothRev_inconsistent_unresolved sampleCatalog 10 40 false
    (by decide) (by decide) (by decide)

/-- C6: A truthy direct name selector (`to` or `from`) makes the whole
resolution block fall through: both name selectors are passed through
unchanged and the revision selectors are ignored. -/
theorem resolve_name_precedence
    (files : List AutoMigrationFile) (toArg fromArg : Option String)
    (toRev fromRev : Option Int) (rollback : Bool) :
    (strTruthy toArg = true →
      resolveRange files toArg fromArg toRev fromRev rollback = ⟨toArg, fromArg⟩) ∧
    (strTruthy fromArg = true →
      resolveRange files toArg fromArg toRev fromRev rollback = ⟨toArg, fromArg⟩) := by
  constructor <;> intro h <;> simp [resolveRange, h]

/-- Witness for C6: `to="x.js"` together with `toRev=30` (and `fromRev=20`)
on the sample catalog — the name is passed through, the revisions ignored. -/
theorem resolve_name_precedence_witness :
    strTruthy (some "x.js") = true ∧
    resolveRange sampleCatalog (some "x.js") none (some 30) (some 20) false =
      ⟨some "x.js", none⟩ :=
  ⟨by decide,
    (resolve_name_precedence sampleCatalog (some "x.js") none (some 30) (some 20)
      false).1 (by decide)⟩

/-- C7: With only `toRev` supplied (nonzero), the `to` endpoint
resolves to the name of the first record whose module revision equals
`toRev` (unresolved when none matches) and `from` stays unresolved;
symmetrically with only `fromRev` supplied. -/
theorem resolve_single_rev
    (files : List AutoMigrationFile) (tr fr : Int) (rollback : Bool)
    (htr : tr ≠ 0) (hfr : fr ≠ 0) :
    resolveRange files none none (some tr) none rollback =
      ⟨(findByRev files tr).map (fun f => f.name), none⟩ ∧
    resolveRange files none none none (some fr) rollback =
      ⟨none, (findByRev files fr).map (fun f => f.name)⟩ := by
  constructor
  · cases h : findByRev files tr <;>
      simp [resolveRange, strTruthy, numTruthy, htr, h]
  · cases h : findByRev files fr <;>
      simp [resolveRange, strTruthy, numTruthy, hfr, h]

/-- Witness for C7: `toRev=30` alone on the catalog with revisions
10, 20, 30, 40 resolves `to` to `"30-c.js"` and leaves `from` unresolved. -/
theorem resolve_single_rev_witness :
    (resolveRange sampleCatalog none none (some 30) none false =
      ⟨(findByRev sampleCatalog 30).map (fun f => f.name), none⟩ ∧
    resolveRange sampleCatalog none none none (some 30) false =
      ⟨none, (findByRev sampleCatalog 30).map (fun f => f.name)⟩) ∧
    (findByRev sampleCatalog 30).map (fun f => f.name) = some "30-c.js" :=
  ⟨resolve_single_rev sampleCatalog 30 30 false (by decide) (by decide), by decide⟩

/-- C10: A revision selector equal to `0` is falsy, hence treated
exactly as an absent selector: resolution with `toRev=0` (resp.
`fromRev=0`) coincides with resolution with `toRev` (resp. `fromRev`)
absent, and the corresponding endpoint is never resolved to a record —
its name selector is passed through unchanged. -/
theorem resolve_revZero_absent
    (files : List AutoMigrationFile) (toArg fromArg : Option String)
    (other : Option Int) (rollback : Bool) :
    (resolveRange files toArg fromArg (some 0) other rollback =
      resolveRange files toArg fromArg none other rollback) ∧
    (resolveRange files toArg fromArg other (some 0) rollback =
      resolveRange files toArg fromArg other none rollback) ∧
    (resolveRange files toArg fromArg (some 0) other rollback).toMigration = toArg ∧
    (resolveRange files toArg fromArg other (some 0) rollback).fromMigration = fromArg := by
  have h0 : numTruthy (some 0) = false := by decide
  have hto : ∀ fr : Option Int,
      (resolveRange files toArg fromArg none fr rollback).toMigration = toArg := by
    intro fr
    unfold resolveRange
    cases hf : findByRev files (fr.getD 0) <;>
      (simp [numTruthy, hf]; try (split <;> rfl))
  have hfrom : ∀ tr : Option Int,
      (resolveRange files toArg fromArg tr none rollback).fromMigration = fromArg := by
    intro tr
    unfold resolveRange
    cases hf : findByRev files (tr.getD 0) <;>
      (simp [numTruthy, hf]; try (split <;> rfl))
  have h1 : resolveRange files toArg fromArg (some 0) other rollback =
      resolveRange files toArg fromArg none other rollback := by
    simp [resolveRange, h0, numTruthy]
  have h2 : resolveRange files toArg fromArg other (some 0) rollback =
      resolveRange files toArg fromArg other none rollback := by
    simp [resolveRange, h0, numTruthy]
  exact ⟨h1, h2, h1 ▸ hto other, h2 ▸ hfrom other⟩

/-- On filenames whose revision parses, the comparator ordering coincides
with the integer ordering of the parsed revisions (reversed for
rollback). -/
theorem migLe_eq_key_of_parse {a b : String}
    (ha : (parseRevision a).isSome = true) (hb : (parseRevision b).isSome = true) :
    migLe false a b = decide (revValue a ≤ revValue b) ∧
    migLe true a b = decide (-(revValue a) ≤ -(revValue b)) := by
  rcases Option.isSome_iff_exists.mp ha with ⟨x, hx⟩
  rcases Option.isSome_iff_exists.mp hb with ⟨y, hy⟩
  constructor
  · simp only [migLe, jsCompare, revValue, hx, hy, Option.getD_some,
      Bool.false_eq_true, if_false]
    rw [decide_eq_decide]
    split_ifs <;> omega
  · simp only [migLe, jsCompare, revValue, hx, hy, Option.getD_some, if_true]
    rw [decide_eq_decide]
    split_ifs <;> omega

/-- C1: When every filename's leading token before the first `-`
parses as an integer revision, the catalog's sort is a permutation of its
input ordered ascending by revision for forward runs (`rollback=false`)
and descending for rollback runs (`rollback=true`). -/
theorem catalog_sort_ordered (files : List String)
    (h : ∀ f ∈ files, (parseRevision f).isSome = true) :
    (sortMigrations false files).Perm files ∧
    (sortMigrations true files).Perm files ∧
    (sortMigrations false files).Pairwise (fun a b => revValue a ≤ revValue b) ∧
    (sortMigrations true files).Pairwise (fun a b => revValue b ≤ revValue a) := by
  refine ⟨perm_insertionSortBy _ files, perm_insertionSortBy _ files, ?_, ?_⟩
  · have hEq : insertionSortBy (migLe false) files =
        insertionSortBy (fun a b => decide (revValue a ≤ revValue b)) files :=
      insertionSortBy_congr _ _ files fun a ha b hb =>
        (migLe_eq_key_of_parse (h a ha) (h b hb)).1
    unfold sortMigrations
    rw [hEq]
    exact pairwise_insertionSortBy_key revValue files
  · have hEq : insertionSortBy (migLe true) files =
        insertionSortBy (fun a b => decide (-(revValue a) ≤ -(revValue b))) files :=
      insertionSortBy_congr _ _ files fun a ha b hb =>
        (migLe_eq_key_of_parse (h a ha) (h b hb)).2
    unfold sortMigrations
    rw [hEq]
    exact (pairwise_insertionSortBy_key (fun f => -(revValue f)) files).imp
      fun hab => by omega

/-- Witness for C1: a concrete catalog with revisions 20, 10, 30. -/
theorem catalog_sort_ordered_witness :
    (∀ f ∈ ["20-b.js", "10-a.js", "30-c.js"], (parseRevision f).isSome = true) ∧
    ((sortMigrations false ["20-b.js", "10-a.js", "30-c.js"]).Perm
        ["20-b.js", "10-a.js", "30-c.js"] ∧
      (sortMigrations true ["20-b.js", "10-a.js", "30-c.js"]).Perm
        ["20-b.js", "10-a.js", "30-c.js"] ∧
      (sortMigrations false ["20-b.js", "10-a.js", "30-c.js"]).Pairwise
        (fun a b => revValue a ≤ revValue b) ∧
      (sortMigrations true ["20-b.js", "10-a.js", "30-c.js"]).Pairwise
        (fun a b => revValue b ≤ revValue a)) :=
  ⟨by decide, catalog_sort_ordered ["20-b.js", "10-a.js", "30-c.js"] (by decide)⟩

/-- C4 counterexample: A filename with a non-numeric prefix does not
abort anything: its revision parses to `NaN` (`none`), the comparator
returns `0` against a well-formed filename, and the discovery pipeline
completes normally with the file still in the catalog — no `ParseError`
exists anywhere in the code. -/
theorem parse_fail_counterexample :
    parseRevision "foo-bar.js" = none ∧
    jsCompare false "foo-bar.js" "10-a.js" = 0 ∧
    jsCompare true "foo-bar.js" "10-a.js" = 0 ∧
    discoverMigrations false ["10-a.js", "foo-bar.js"] =
      ["10-a.js", "foo-bar.js"] :=
  ⟨by decide, by decide, by decide, by decide⟩

/-- C4 amended: A discovered filename whose prefix before the first
`-` is non-numeric parses to `NaN`; the sort comparator returns `0`
between it and any other filename (both ways), and the discovery pipeline
keeps the file in the catalog — the run proceeds, nothing aborts. -/
theorem parse_fail_no_abort (entries : List String) (f g : String) (rb : Bool)
    (hmem : f ∈ entries) (hfilter : jsFileFilter f = true)
    (hbad : parseRevision f = none) :
    f ∈ discoverMigrations rb entries ∧
    jsCompare rb f g = 0 ∧ jsCompare rb g f = 0 := by
  refine ⟨?_, ?_, ?_⟩
  · unfold discoverMigrations sortMigrations
    exact mem_insertionSortBy.mpr (List.mem_filter.mpr ⟨hmem, hfilter⟩)
  · cases hg : parseRevision g <;> simp [jsCompare, hbad, hg]
  · cases hg : parseRevision g <;> simp [jsCompare, hbad, hg]

/-- Witness for the amended C4. -/
theorem parse_fail_no_abort_witness :
    parseRevision "foo-bar.js" = none ∧
    ("foo-bar.js" ∈ discoverMigrations false ["10-a.js", "foo-bar.js"] ∧
      jsCompare false "foo-bar.js" "10-a.js" = 0 ∧
      jsCompare false "10-a.js" "foo-bar.js" = 0) :=
  ⟨by decide,
    parse_fail_no_abort ["10-a.js", "foo-bar.js"] "foo-bar.js" "10-a.js" false
      (by decide) (by decide) (by decide)⟩

/-- C3 (code bug): The `getMigrator` mapping assigns the starting position to
every migration in the list, not only the first: with step 5 and two
loaded migrations whose scripts start at position 0, both prepared
migrations end up with `pos = 5`.  This contradicts the option's own help
text ("Run first migration at pos"). -/
theorem prepare_sets_pos_on_all :
    (prepareMigrations 5 true [mkFile 10 "10-a.js", mkFile 20 "20-b.js"]).map
      (fun l => l.map (fun m => m.pos)) = some [5, 5] := by decide

/-- C5 counterexample: With the models directory missing (everything
else healthy), `Main` prints a message and returns: the process exits
with code `0`, not a non-zero code. -/
theorem missing_dir_exit_zero :
    mainExitCode
      ⟨false, true, false, false, true, Except.ok ([], []), Except.ok []⟩ = 0 :=
  rfl

/-- C5 amended: The process exits `0` on a successful run, on
`--list` with successful queries, on `--help`, and also when the models
or migrations directory is missing (only a diagnostic is printed); it
exits `1` when the migration run errors, when the `--list` queries error,
or when loading the models module throws. -/
theorem exit_code_policy (env : MainEnv) :
    ((env.modelsDirExists = false ∨ env.migrationsDirExists = false) →
      mainExitCode env = 0) ∧
    (env.modelsDirExists = true → env.migrationsDirExists = true →
      env.help = true → mainExitCode env = 0) ∧
    (env.modelsDirExists = true → env.migrationsDirExists = true →
      env.help = false → env.modelsLoadOk = false → mainExitCode env = 1) ∧
    (∀ ep, env.modelsDirExists = true → env.migrationsDirExists = true →
      env.help = false → env.modelsLoadOk = true → env.list = true →
      env.listResult = Except.ok ep → mainExitCode env = 0) ∧
    (∀ e, env.modelsDirExists = true → env.migrationsDirExists = true →
      env.help = false → env.modelsLoadOk = true → env.list = true →
      env.listResult = Except.error e → mainExitCode env = 1) ∧
    (∀ r, env.modelsDirExists = true → env.migrationsDirExists = true →
      env.help = false → env.modelsLoadOk = true → env.list = false →
      env.runResult = Except.ok r → mainExitCode env = 0) ∧
    (∀ e, env.modelsDirExists = true → env.migrationsDirExists = true →
      env.help = false → env.modelsLoadOk = true → env.list = false →
      env.runResult = Except.error e → mainExitCode env = 1) := by
  refine ⟨?_, ?_, ?_, ?_, ?_, ?_, ?_⟩
  · rintro (h | h) <;> simp [mainExitCode, h]
  · intro h1 h2 h3
    simp [mainExitCode, h1, h2, h3]
  · intro h1 h2 h3 h4
    simp [mainExitCode, h1, h2, h3, h4]
  · intro ep h1 h2 h3 h4 h5 h6
    simp [mainExitCode, h1, h2, h3, h4, h5, h6]
  · intro e h1 h2 h3 h4 h5 h6
    simp [mainExitCode, h1, h2, h3, h4, h5, h6]
  · intro r h1 h2 h3 h4 h5 h6
    simp [mainExitCode, h1, h2, h3, h4, h5, h6]
  · intro e h1 h2 h3 h4 h5 h6
    simp [mainExitCode, h1, h2, h3, h4, h5, h6]

/-- Witness for the amended C5: a failing migration run exits `1`. -/
theorem exit_code_policy_witness :
    mainExitCode
      ⟨true, true, false, false, true, Except.ok ([], []),
        Except.error "boom"⟩ = 1 :=
  (exit_code_policy _).2.2.2.2.2.2 "boom" rfl rfl rfl rfl rfl rfl

/-- A fully successful forward run appends exactly the run's names to the
tracking store. -/
theorem runUp_all_ok (recs : List SpecRecord) :
    ∀ st : TrackingStore, (∀ r ∈ recs, r.applyOk = true) →
      runUp recs st = (st ++ recs.map (fun r => r.name), true) := by
  induction recs with
  | nil => intro st _; simp [runUp]
  | cons r rs ih =>
    intro st h
    have hr : r.applyOk = true := h r (List.mem_cons_self r rs)
    have hrest := ih (markApplied st r.name)
      (fun x hx => h x (List.mem_cons_of_mem r hx))
    simp only [markApplied] at hrest
    simp [runUp, hr, markApplied, hrest, List.append_assoc]

/-- Membership in the store after a fully successful rollback run: a name
survives exactly when it was there before and is not among the reverted
names. -/
theorem mem_runDown_all_ok (recs : List SpecRecord) :
    ∀ st : TrackingStore, (∀ r ∈ recs, r.revertOk = true) → ∀ x : String,
      (x ∈ (runDown recs st).1 ↔ x ∈ st ∧ ∀ r ∈ recs, ¬(x = r.name)) := by
  induction recs with
  | nil => intro st _ x; simp [runDown]
  | cons r rs ih =>
    intro st h x
    have hr : r.revertOk = true := h r (List.mem_cons_self r rs)
    have hrest := ih (markReverted st r.name)
      (fun y hy => h y (List.mem_cons_of_mem r hy)) x
    simp only [runDown, hr, if_true]
    rw [hrest]
    simp only [markReverted, List.mem_filter, List.mem_cons,
      Bool.not_eq_true', beq_eq_false_iff_ne, ne_eq]
    constructor
    · rintro ⟨⟨hst, hne⟩, hall⟩
      refine ⟨hst, ?_⟩
      rintro q (rfl | hq)
      · exact hne
      · exact hall q hq
    · rintro ⟨hst, hall⟩
      exact ⟨⟨hst, hall r (Or.inl rfl)⟩, fun q hq => hall q (Or.inr hq)⟩

/-- C8 (spec-modelled): Applying the full ordered set (all applies succeeding) and
then rolling back the full reversed set (all reverts succeeding), starting
from an empty tracking store, returns the tracking store to empty. -/
theorem round_trip_empty (recs : List SpecRecord)
    (hup : ∀ r ∈ recs, r.applyOk = true)
    (hdown : ∀ r ∈ recs, r.revertOk = true) :
    (runDown recs.reverse (runUp recs []).1).1 = [] := by
  rw [runUp_all_ok recs [] hup]
  refine List.eq_nil_iff_forall_not_mem.mpr fun x hx => ?_
  rw [mem_runDown_all_ok recs.reverse _
    (fun r hr => hdown r (List.mem_reverse.mp hr)) x] at hx
  rcases hx with ⟨hmem, hnone⟩
  simp only [List.nil_append] at hmem
  rcases List.mem_map.mp hmem with ⟨r, hr, hname⟩
  exact hnone r (List.mem_reverse.mpr hr) hname.symm

/-- Witness for C8: two migrations, all operations succeeding. -/
theorem round_trip_empty_witness :
    (∀ r ∈ [SpecRecord.mk "10-a.js" true true, SpecRecord.mk "20-b.js" true true],
      r.applyOk = true) ∧
    (runDown [SpecRecord.mk "10-a.js" true true,
        SpecRecord.mk "20-b.js" true true].reverse
      (runUp [SpecRecord.mk "10-a.js" true true,
        SpecRecord.mk "20-b.js" true true] []).1).1 = [] :=
  ⟨by decide,
    round_trip_empty
      [SpecRecord.mk "10-a.js" true true, SpecRecord.mk "20-b.js" true true]
      (by decide) (by decide)⟩

/-- C9 (spec-modelled): The `--list` branch returns the tracking store unchanged, and
the `executed` and `pending` query results partition the catalog: their
concatenation is a permutation of the catalog and their intersection is
empty. -/
theorem list_branch_pure_partition (catalog : List String) (st : TrackingStore) :
    (listBranch catalog st).2 = st ∧
    ((listBranch catalog st).1.1 ++ (listBranch catalog st).1.2).Perm catalog ∧
    ((listBranch catalog st).1.1 ∩ (listBranch catalog st).1.2) = [] := by
  refine ⟨rfl, List.filter_append_perm _ catalog, ?_⟩
  refine List.eq_nil_iff_forall_not_mem.mpr fun x hx => ?_
  rw [List.mem_inter_iff] at hx
  rcases hx with ⟨h1, h2⟩
  rw [listBranch] at h1 h2
  simp only [listExecuted, List.mem_filter] at h1
  simp only [listPending, List.mem_filter] at h2
  rw [h1.2] at h2
  simp at h2

end RunMigration
